import Mathlib

/-
Shallow embedding of the Bond-Hive soroban contracts.

Conventions:
* addresses are `Nat`; ledger timestamps (`u64`) are `Nat`;
* `i128` amounts are unbounded `Int` (on-chain arithmetic overflow traps
  and the call commits nothing, so committed behaviour agrees with the
  exact-integer model);
* Rust `i128` division truncates toward zero, which is `Int.tdiv`;
  division by zero traps and is modelled by an explicit branch where the
  divisor can be zero;
* host storage is modelled per key: keys that the source reads with
  `unwrap_or(default)` become total fields with that default, keys that
  the source reads with `ok_or(err)` become `Option` fields; the vault's
  getters are plain `.unwrap()`s, so its state type posits the keys
  present (they are all written together by a committed `initialize`),
  and the freshly-deployed no-keys case — where any such getter traps
  with the host's missing-value error — is modelled where a getter can
  actually meet it, in `vaultInit`'s `Option` pre-state;
* `require_auth` is host-checked and outside the model: every modelled
  call stands for an invocation that passed authorization;
* token contracts: a balance map per token together with the soroban
  transfer/mint/burn semantics (negative amount or insufficient source
  balance traps the whole call).
-/

namespace BondHive

/-- Balances of one token contract: address to amount. -/
def Balances := Nat → Int

/-- Pointwise update of a balance map. -/
def updBal (bal : Balances) (a : Nat) (v : Int) : Balances :=
  fun x => if x = a then v else bal x

/-- Soroban token `transfer`: traps (`none`) on a negative amount or an
insufficient source balance, otherwise moves `amt` from `src` to `dst`. -/
def transferBal (bal : Balances) (src dst : Nat) (amt : Int) : Option Balances :=
  if amt < 0 then none
  else if bal src < amt then none
  else
    let b1 := updBal bal src (bal src - amt)
    some (updBal b1 dst (b1 dst + amt))

/-- Soroban token `mint`: traps on a negative amount. -/
def mintBal (bal : Balances) (dst : Nat) (amt : Int) : Option Balances :=
  if amt < 0 then none
  else some (updBal bal dst (bal dst + amt))

/-- Soroban token `burn`: traps on a negative amount or an insufficient
source balance. -/
def burnBal (bal : Balances) (src : Nat) (amt : Int) : Option Balances :=
  if amt < 0 then none
  else if bal src < amt then none
  else some (updBal bal src (bal src - amt))

/-- Ways a vault call can abort.  The first seven mirror the explicit
`panic!` messages of `src/src/lib.rs` (the contract's designated
errors); `tokenTrap` is a failed token-contract call, `divByZero` an
arithmetic trap, and `missingValue` the host's trap for `.unwrap()` of
an absent storage key — none of these three is a designated error of
the vault. -/
inductive VaultPanic where
  | negativeAmount
  | maturityReached
  | notOpenYet
  | quoteRequired
  | maturityNotReached
  | totalReserveNotSet
  | alreadySet
  | alreadyInit
  | tokenTrap
  | divByZero
  | missingValue
deriving DecidableEq

/-- Instance storage of the vault (`src/src/lib.rs`) with every key
present, plus the balance maps of the two token contracts it talks to.
`totalReserve` is the quantity the spec calls `TotalRedemption`.  A
freshly deployed vault has no keys at all (every getter is a plain
`.unwrap()` that would trap); this type models the states after the
keys have been written, and `vaultInit` takes the deployed storage as
an `Option` of it. -/
structure VaultState where
  token : Nat
  admin : Nat
  treasury : Nat
  selfAddr : Nat
  startTime : Nat
  endTime : Nat
  quotePeriod : Nat
  quoteExpiration : Nat
  currentQuote : Int
  totalShares : Int
  reserve : Int
  totalReserve : Int
  assetBal : Balances
  shareBal : Balances

/-- `get_current_quote`: the stored quote if both the value and the
expiration are non-zero and `now` has not passed the expiration,
otherwise `0`. -/
def getCurrentQuote (s : VaultState) (now : Nat) : Int :=
  if s.currentQuote ≠ 0 ∧ s.quoteExpiration ≠ 0 then
    if now ≤ s.quoteExpiration then s.currentQuote else 0
  else 0

/-- `Vault::initialize` (lib.rs 222-254).  Its guard reads
`get_start_time` (lib.rs 47-49), a plain `.unwrap()` of the `StartTime`
key — and that key is first written later in `initialize` itself, which
writes all the instance keys together.  So the pre-state is either
`none` (freshly deployed, no keys: the read traps with the host's
missing-value error before the guard) or `some s` (keys present: a
positive stored `start_time` panics "already initialized", otherwise
the writes commit).  The deployment of the fresh share token is the
host's business (spec §1 treats token deployment as an external
collaborator) and is not modelled; the storage reads and writes are. -/
def vaultInit (pre : Option VaultState) (tok adm : Nat)
    (startT endT quoteP : Nat) (treas : Nat) : Except VaultPanic VaultState :=
  match pre with
  | none => .error .missingValue
  | some s =>
    if 0 < s.startTime then .error .alreadyInit
    else
      .ok { s with
            token := tok
            admin := adm
            startTime := startT
            endTime := endT
            totalShares := 0
            reserve := 0
            totalReserve := 0
            currentQuote := 0
            quotePeriod := quoteP
            treasury := treas }

/-- `Vault::set_quote` (admin-authorized): rejects a negative value,
stores the value and resets the expiration to `now + quote_period`. -/
def vaultSetQuote (s : VaultState) (now : Nat) (amount : Int) :
    Except VaultPanic VaultState :=
  if amount < 0 then .error .negativeAmount
  else .ok { s with
             currentQuote := amount
             quoteExpiration := now + s.quotePeriod }

/-- `Vault::deposit`. -/
def vaultDeposit (s : VaultState) (now : Nat) (src : Nat) (amount : Int) :
    Except VaultPanic (VaultState × Int) :=
  if amount < 0 then .error .negativeAmount
  else if s.endTime < now then .error .maturityReached
  else if now < s.startTime then .error .notOpenYet
  else
    let quote := getCurrentQuote s now
    if quote = 0 then .error .quoteRequired
    else
      let quantity := amount * quote
      match transferBal s.assetBal src s.treasury amount with
      | none => .error .tokenTrap
      | some ab =>
        match mintBal s.shareBal src quantity with
        | none => .error .tokenTrap
        | some sb =>
          .ok ({ s with
                 assetBal := ab
                 shareBal := sb
                 totalShares := s.totalShares + quantity
                 reserve := s.reserve + amount }, quantity)

/-- `Vault::withdraw`.  The division `total_reserve / total_shares` is
`i128` division (truncation toward zero); a zero `total_shares` traps. -/
def vaultWithdraw (s : VaultState) (now : Nat) (dst : Nat) (amount : Int) :
    Except VaultPanic (VaultState × Int) :=
  if amount < 0 then .error .negativeAmount
  else if now < s.endTime then .error .maturityNotReached
  else if s.totalReserve = 0 then .error .totalReserveNotSet
  else
    match transferBal s.shareBal dst s.selfAddr amount with
    | none => .error .tokenTrap
    | some sb1 =>
      if s.totalShares = 0 then .error .divByZero
      else
        let assetAmount := Int.tdiv s.totalReserve s.totalShares * amount
        match transferBal s.assetBal s.selfAddr dst assetAmount with
        | none => .error .tokenTrap
        | some ab =>
          match burnBal sb1 s.selfAddr amount with
          | none => .error .tokenTrap
          | some sb2 =>
            .ok ({ s with
                   shareBal := sb2
                   assetBal := ab
                   totalShares := s.totalShares - amount
                   totalReserve := s.totalReserve - assetAmount }, assetAmount)

/-- `Vault::set_total_reserve` (what the spec calls the total
redemption value). -/
def vaultSetTotalReserve (s : VaultState) (now : Nat) (amount : Int) :
    Except VaultPanic VaultState :=
  if amount < 0 then .error .negativeAmount
  else if now < s.endTime then .error .maturityNotReached
  else if 0 < s.totalReserve then .error .alreadySet
  else
    match transferBal s.assetBal s.admin s.selfAddr amount with
    | none => .error .tokenTrap
    | some ab => .ok { s with assetBal := ab, totalReserve := amount }

/-- `FarmError` of `src/farm_contract/src/lib.rs` (the `contracterror`
enumeration). -/
inductive FarmError where
  | InvalidAmount
  | NotInitialized
  | NotAuthorized
  | PoolNotActive
  | WithdrawError
  | InsufficientRewards
  | PoolNotFound
  | UserNotFound
  | SameRewardTokens
  | TokenConflict
  | AlreadyInitialized
  | ContractStopped
deriving DecidableEq

/-- Outcome of an aborted farm call: either one of the contract's
designated errors (returned as `Err`) or a host trap raised by a failed
token-contract call. -/
inductive FarmAbort where
  | err (e : FarmError)
  | trap
deriving DecidableEq

/-- `Pool` record of the farm. -/
structure Pool where
  start_time : Nat
  reward_ratio1 : Int
  reward_ratio2 : Int
deriving DecidableEq

/-- `UserData` record of the farm. -/
structure UserData where
  deposited : Int
  deposit_time : Nat
  accrued_rewards1 : Int
  accrued_rewards2 : Int
deriving DecidableEq

/-- `DECIMALS = 7`: fixed-point scale of reward ratios. -/
def DECIMALS : Nat := 7

/-- The linear-accrual kernel the farm uses everywhere:
`base * ratio * dt / 10^DECIMALS` when `ratio > 0`, else `0`
(`i128` division truncating toward zero). -/
def linYield (base ratio : Int) (dt : Nat) : Int :=
  if 0 < ratio then Int.tdiv (base * ratio * (dt : Int)) (10 ^ DECIMALS) else 0

/-- Farm storage (`src/farm_contract/src/lib.rs`) together with the
farm's own balance of each reward token (`bal1`, `bal2`; `bal2` is
meaningful when a second reward token is configured).  Keys the source
reads with `unwrap_or` defaults are total fields; keys read with
`ok_or(NotInitialized)` / `PoolNotFound` / `UserNotFound` are `Option`.
The pool token is pairwise distinct from both reward tokens (checked at
initialization), so pool-token movements never change `bal1`/`bal2`;
balances of other parties in the pool token are kept abstract. -/
structure FarmState where
  admin : Option Nat
  rewardedToken1 : Option Nat
  rewardedToken2 : Option Nat
  poolToken : Option Nat
  maturity : Option Nat
  maxRatio1 : Option Int
  maxRatio2 : Option Int
  allocated1 : Int
  allocated2 : Int
  poolCounter : Nat
  isInit : Bool
  stopped : Bool
  pools : Nat → Option Pool
  users : Nat → Nat → Option UserData
  bal1 : Int
  bal2 : Int

/-- The farm's state at deployment: every storage key absent, the
`unwrap_or` defaults for the total fields, no reward-token balance. -/
def farmStart : FarmState where
  admin := none
  rewardedToken1 := none
  rewardedToken2 := none
  poolToken := none
  maturity := none
  maxRatio1 := none
  maxRatio2 := none
  allocated1 := 0
  allocated2 := 0
  poolCounter := 0
  isInit := false
  stopped := false
  pools := fun _ => none
  users := fun _ _ => none
  bal1 := 0
  bal2 := 0

/-- `has_sufficient_rewards`: available balance of each configured
reward token against the required amounts; with no second token the
second requirement must be exactly zero. -/
def hasSufficientRewards (s : FarmState) (required1 required2 : Int) : Prop :=
  if s.rewardedToken2.isSome then
    required1 ≤ s.bal1 ∧ required2 ≤ s.bal2
  else
    required1 ≤ s.bal1 ∧ required2 = 0

instance (s : FarmState) (r1 r2 : Int) : Decidable (hasSufficientRewards s r1 r2) := by
  unfold hasSufficientRewards
  split <;> infer_instance

/-- `Farm::initialize`.  (The source additionally publishes an event and
returns the string literal Ok; events are not modelled.) -/
def farmInit (s : FarmState) (adm rt1 : Nat) (rt2 : Option Nat) (poolTok : Nat)
    (mat : Nat) (maxR1 : Int) (maxR2 : Option Int) : Except FarmAbort FarmState :=
  if s.isInit then .error (.err .AlreadyInitialized)
  else if rt1 = poolTok then .error (.err .TokenConflict)
  else if rt2 = some poolTok then .error (.err .TokenConflict)
  else if rt2 = some rt1 then .error (.err .SameRewardTokens)
  else
    .ok { s with
          admin := some adm
          rewardedToken1 := some rt1
          rewardedToken2 := rt2
          poolToken := some poolTok
          maturity := some mat
          allocated1 := 0
          allocated2 := 0
          poolCounter := 0
          maxRatio1 := some maxR1
          maxRatio2 := maxR2
          isInit := true }

/-- Helper of `Farm::create_pool`: store the new pool under the current
counter and bump the counter, returning the new pool's id. -/
def addPool (s : FarmState) (startT : Nat) (r1 r2v : Int) : FarmState × Nat :=
  let c := s.poolCounter
  ({ s with
     pools := fun i => if i = c then some ⟨startT, r1, r2v⟩ else s.pools i
     poolCounter := c + 1 }, c)

/-- `Farm::create_pool` (admin-authorized). -/
def farmCreatePool (s : FarmState) (startT : Nat) (r1 : Int) (r2 : Option Int) :
    Except FarmAbort (FarmState × Nat) :=
  match s.admin with
  | none => .error (.err .NotInitialized)
  | some _ =>
    match s.maxRatio1 with
    | none => .error (.err .NotInitialized)
    | some m1 =>
      if m1 < r1 then .error (.err .InvalidAmount)
      else
        match r2 with
        | some x =>
          match s.maxRatio2 with
          | some m2 =>
            if m2 < x then .error (.err .InvalidAmount)
            else .ok (addPool s startT r1 x)
          | none => .error (.err .InvalidAmount)
        | none =>
          if s.maxRatio2.isSome then .error (.err .InvalidAmount)
          else .ok (addPool s startT r1 0)

/-- Update one user position in the position map. -/
def setUser (us : Nat → Nat → Option UserData) (u0 p0 : Nat) (v : Option UserData) :
    Nat → Nat → Option UserData :=
  fun u p => if u = u0 ∧ p = p0 then v else us u p

/-- The position `deposit`/`withdraw` start from: the stored one, or a
fresh all-zero position time-stamped `now` (`unwrap_or` in the source). -/
def userOrNew (s : FarmState) (u pid now : Nat) : UserData :=
  (s.users u pid).getD ⟨0, now, 0, 0⟩

/-- `min(now − deposit_time, maturity − deposit_time)`: the accrual
window never extends past maturity (`u64` subtraction; along committed
histories `deposit_time ≤ now`, so truncated subtraction agrees). -/
def elapsedOf (d : UserData) (now mat : Nat) : Nat :=
  min (now - d.deposit_time) (mat - d.deposit_time)

/-- Track-1 accrued yield of a position over its elapsed window. -/
def accrual1 (pool : Pool) (d : UserData) (now mat : Nat) : Int :=
  linYield d.deposited pool.reward_ratio1 (elapsedOf d now mat)

/-- Track-2 accrued yield: zero unless a second reward token is
configured (`ratio2 > 0 && token2.is_some()` in the source). -/
def accrual2 (s : FarmState) (pool : Pool) (d : UserData) (now mat : Nat) : Int :=
  if s.rewardedToken2.isSome then
    linYield d.deposited pool.reward_ratio2 (elapsedOf d now mat)
  else 0

/-- Track-1 commitment of `amount` from `now` to maturity. -/
def potential1 (pool : Pool) (mat now : Nat) (amount : Int) : Int :=
  linYield amount pool.reward_ratio1 (mat - now)

/-- Track-2 commitment of `amount` from `now` to maturity (zero without
a second reward token). -/
def potential2 (s : FarmState) (pool : Pool) (mat now : Nat) (amount : Int) : Int :=
  if s.rewardedToken2.isSome then linYield amount pool.reward_ratio2 (mat - now)
  else 0

/-- The state committed by a successful `Farm::deposit` (all storage
writes of lines 476-506 of the source). -/
def depositApply (s : FarmState) (now depositor : Nat) (amount : Int)
    (poolId : Nat) (pool : Pool) (mat : Nat) : FarmState :=
  let d := userOrNew s depositor poolId now
  { s with
    allocated1 := s.allocated1 + potential1 pool mat now amount
    allocated2 := s.allocated2 + potential2 s pool mat now amount
    users := setUser s.users depositor poolId
      (some ⟨d.deposited + amount, now,
             d.accrued_rewards1 + accrual1 pool d now mat,
             d.accrued_rewards2 + accrual2 s pool d now mat⟩) }

/-- `Farm::deposit`.  The depositor's pool-token transfer into the farm
moves the pool token only (pairwise distinct from both reward tokens),
so it is kept abstract; all reward accounting is modelled exactly. -/
def farmDeposit (s : FarmState) (now : Nat) (depositor : Nat) (amount : Int)
    (poolId : Nat) : Except FarmAbort (FarmState × Int) :=
  if s.stopped then .error (.err .ContractStopped)
  else if amount < 0 then .error (.err .InvalidAmount)
  else if amount = 0 then .error (.err .InvalidAmount)
  else
    match s.pools poolId with
    | none => .error (.err .PoolNotFound)
    | some pool =>
      match s.poolToken with
      | none => .error (.err .NotInitialized)
      | some _ =>
        match s.maturity with
        | none => .error (.err .NotInitialized)
        | some mat =>
          if mat ≤ now then .error (.err .PoolNotActive)
          else if now < pool.start_time then .error (.err .PoolNotActive)
          else
            match s.rewardedToken1 with
            | none => .error (.err .NotInitialized)
            | some _ =>
              if hasSufficientRewards s
                  (s.allocated1 + potential1 pool mat now amount)
                  (s.allocated2 + potential2 s pool mat now amount) then
                .ok (depositApply s now depositor amount poolId pool mat, amount)
              else .error (.err .InsufficientRewards)

/-- Reward actually paid out by `Farm::withdraw` on track 1: the
position's banked accrued rewards plus the fresh yield on the whole
remaining deposit. -/
def paidOut1 (pool : Pool) (d : UserData) (now mat : Nat) : Int :=
  d.accrued_rewards1 + accrual1 pool d now mat

/-- Reward actually paid out by `Farm::withdraw` on track 2. -/
def paidOut2 (s : FarmState) (pool : Pool) (d : UserData) (now mat : Nat) : Int :=
  d.accrued_rewards2 + accrual2 s pool d now mat

/-- The state committed by a successful `Farm::withdraw` (lines 587-625
of the source): the reward payouts leave the farm's reward balances,
the allocated counters drop by the payouts, and — before maturity —
additionally by the unused future commitment of the withdrawn amount;
the position is rewritten (or deleted when emptied). -/
def withdrawApply (s : FarmState) (now withdrawer : Nat) (amount : Int)
    (poolId : Nat) (pool : Pool) (mat : Nat) (d : UserData) : FarmState :=
  let paid1 := paidOut1 pool d now mat
  let paid2 := paidOut2 s pool d now mat
  let refund1 := if now < mat then potential1 pool mat now amount else 0
  let refund2 := if now < mat then potential2 s pool mat now amount else 0
  { s with
    allocated1 := s.allocated1 - paid1 - refund1
    allocated2 := s.allocated2 - paid2 - refund2
    bal1 := if 0 < paid1 then s.bal1 - paid1 else s.bal1
    bal2 := if 0 < paid2 ∧ s.rewardedToken2.isSome then s.bal2 - paid2 else s.bal2
    users := setUser s.users withdrawer poolId
      (if 0 < d.deposited - amount then
        some ⟨d.deposited - amount, (if now < mat then now else mat), 0, 0⟩
      else none) }

/-- `Farm::withdraw`.  The pool-token refund to the withdrawer is kept
abstract (it moves the pool token only); the reward-token payouts come
out of `bal1`/`bal2` with soroban transfer semantics (a transfer runs
only when the owed amount is positive and traps when the farm's balance
is short). -/
def farmWithdraw (s : FarmState) (now : Nat) (withdrawer : Nat) (amount : Int)
    (poolId : Nat) : Except FarmAbort (FarmState × Int) :=
  if amount < 0 then .error (.err .InvalidAmount)
  else
    match s.pools poolId with
    | none => .error (.err .PoolNotFound)
    | some pool =>
      match s.poolToken with
      | none => .error (.err .NotInitialized)
      | some _ =>
        match s.users withdrawer poolId with
        | none => .error (.err .UserNotFound)
        | some d =>
          if d.deposited < amount then .error (.err .InvalidAmount)
          else if now < pool.start_time then .error (.err .PoolNotActive)
          else
            match s.maturity with
            | none => .error (.err .NotInitialized)
            | some mat =>
              if 0 < paidOut1 pool d now mat ∧ s.rewardedToken1 = none then
                .error (.err .NotInitialized)
              else if 0 < paidOut1 pool d now mat ∧ s.bal1 < paidOut1 pool d now mat then
                .error .trap
              else if 0 < paidOut2 s pool d now mat ∧ s.rewardedToken2.isSome
                  ∧ s.bal2 < paidOut2 s pool d now mat then
                .error .trap
              else
                .ok (withdrawApply s now withdrawer amount poolId pool mat d, amount)

/-- `Farm::withdraw_unallocated_rewards` (admin-authorized). -/
def farmWithdrawUnalloc (s : FarmState) (now : Nat) :
    Except FarmAbort (FarmState × (Int × Int)) :=
  match s.admin with
  | none => .error (.err .NotInitialized)
  | some _ =>
    match s.maturity with
    | none => .error (.err .NotInitialized)
    | some mat =>
      if now < mat then .error (.err .NotAuthorized)
      else
        match s.rewardedToken1 with
        | none => .error (.err .NotInitialized)
        | some _ =>
          let avail2 := if s.rewardedToken2.isSome then s.bal2 else 0
          let u1 := max (s.bal1 - s.allocated1) 0
          let u2 := max (avail2 - s.allocated2) 0
          if 0 < u1 ∧ s.bal1 < u1 then .error .trap
          else if s.rewardedToken2.isSome ∧ 0 < u2 ∧ s.bal2 < u2 then .error .trap
          else
            let bal1n := if 0 < u1 then s.bal1 - u1 else s.bal1
            let bal2n := if s.rewardedToken2.isSome ∧ 0 < u2 then s.bal2 - u2 else s.bal2
            .ok ({ s with
                   bal1 := bal1n
                   bal2 := bal2n }, (u1, u2))

/-- `Farm::set_admin` (admin-authorized). -/
def farmSetAdmin (s : FarmState) (newAdmin : Nat) : Except FarmAbort FarmState :=
  match s.admin with
  | none => .error (.err .NotInitialized)
  | some _ => .ok { s with admin := some newAdmin }

/-- `Farm::set_contract_stopped` (admin-authorized). -/
def farmSetStopped (s : FarmState) (b : Bool) : Except FarmAbort FarmState :=
  match s.admin with
  | none => .error (.err .NotInitialized)
  | some _ => .ok { s with stopped := b }

/-- One committed interaction with the farm: any entry point of the
contract that returns successfully, or an external transfer of reward
tokens into the farm (funding only increases the farm's balances; no
external party can move tokens out of the farm's account). -/
inductive FarmStep : FarmState → FarmState → Prop where
  | init {s s' : FarmState} (adm rt1 : Nat) (rt2 : Option Nat) (poolTok mat : Nat)
      (maxR1 : Int) (maxR2 : Option Int)
      (h : farmInit s adm rt1 rt2 poolTok mat maxR1 maxR2 = .ok s') : FarmStep s s'
  | createPool {s s' : FarmState} (startT : Nat) (r1 : Int) (r2 : Option Int) (pid : Nat)
      (h : farmCreatePool s startT r1 r2 = .ok (s', pid)) : FarmStep s s'
  | deposit {s s' : FarmState} (now depositor : Nat) (amount ret : Int) (poolId : Nat)
      (h : farmDeposit s now depositor amount poolId = .ok (s', ret)) : FarmStep s s'
  | withdraw {s s' : FarmState} (now withdrawer : Nat) (amount ret : Int) (poolId : Nat)
      (h : farmWithdraw s now withdrawer amount poolId = .ok (s', ret)) : FarmStep s s'
  | unalloc {s s' : FarmState} (now : Nat) (ret : Int × Int)
      (h : farmWithdrawUnalloc s now = .ok (s', ret)) : FarmStep s s'
  | setAdmin {s s' : FarmState} (newAdmin : Nat)
      (h : farmSetAdmin s newAdmin = .ok s') : FarmStep s s'
  | setStopped {s s' : FarmState} (b : Bool)
      (h : farmSetStopped s b = .ok s') : FarmStep s s'
  | fund {s : FarmState} (a1 a2 : Int) (h1 : 0 ≤ a1) (h2 : 0 ≤ a2) :
      FarmStep s { s with bal1 := s.bal1 + a1, bal2 := s.bal2 + a2 }

/-- States the farm can reach from deployment by committed calls. -/
def FarmReach (s : FarmState) : Prop :=
  Relation.ReflTransGen FarmStep farmStart s

/-- Every stored user position has non-negative deposit and accrued
rewards. -/
def RowsOk (s : FarmState) : Prop :=
  ∀ u p d, s.users u p = some d →
    0 ≤ d.deposited ∧ 0 ≤ d.accrued_rewards1 ∧ 0 ≤ d.accrued_rewards2

/-- Inductive invariant of the farm: balances are non-negative, each
allocated-rewards counter is covered by the matching balance, and all
stored positions are non-negative. -/
def FarmInv (s : FarmState) : Prop :=
  0 ≤ s.bal1 ∧ 0 ≤ s.bal2 ∧ s.allocated1 ≤ s.bal1 ∧ s.allocated2 ≤ s.bal2 ∧ RowsOk s

theorem linYield_nonneg (base ratio : Int) (dt : Nat) (hb : 0 ≤ base) :
    0 ≤ linYield base ratio dt := by
  unfold linYield
  split
  · exact Int.tdiv_nonneg
      (mul_nonneg (mul_nonneg hb (le_of_lt (by assumption))) (Int.natCast_nonneg dt))
      (by positivity)
  · exact le_refl 0

theorem farmInit_inv (s s' : FarmState) (adm rt1 : Nat) (rt2 : Option Nat)
    (poolTok mat : Nat) (maxR1 : Int) (maxR2 : Option Int)
    (hI : FarmInv s) (h : farmInit s adm rt1 rt2 poolTok mat maxR1 maxR2 = .ok s') :
    FarmInv s' := by
  unfold farmInit at h
  split_ifs at h
  simp only [Except.ok.injEq] at h
  subst h
  obtain ⟨h1, h2, h3, h4, h5⟩ := hI
  exact ⟨h1, h2, h1, h2, h5⟩

theorem accrual1_nonneg (pool : Pool) (d : UserData) (now mat : Nat)
    (h : 0 ≤ d.deposited) : 0 ≤ accrual1 pool d now mat :=
  linYield_nonneg _ _ _ h

theorem accrual2_nonneg (s : FarmState) (pool : Pool) (d : UserData) (now mat : Nat)
    (h : 0 ≤ d.deposited) : 0 ≤ accrual2 s pool d now mat := by
  unfold accrual2
  split
  · exact linYield_nonneg _ _ _ h
  · exact le_refl 0

theorem potential1_nonneg (pool : Pool) (mat now : Nat) (amount : Int)
    (h : 0 ≤ amount) : 0 ≤ potential1 pool mat now amount :=
  linYield_nonneg _ _ _ h

theorem potential2_nonneg (s : FarmState) (pool : Pool) (mat now : Nat) (amount : Int)
    (h : 0 ≤ amount) : 0 ≤ potential2 s pool mat now amount := by
  unfold potential2
  split
  · exact linYield_nonneg _ _ _ h
  · exact le_refl 0

theorem paidOut1_nonneg (pool : Pool) (d : UserData) (now mat : Nat)
    (ha : 0 ≤ d.accrued_rewards1) (hd : 0 ≤ d.deposited) :
    0 ≤ paidOut1 pool d now mat :=
  add_nonneg ha (accrual1_nonneg pool d now mat hd)

theorem paidOut2_nonneg (s : FarmState) (pool : Pool) (d : UserData) (now mat : Nat)
    (ha : 0 ≤ d.accrued_rewards2) (hd : 0 ≤ d.deposited) :
    0 ≤ paidOut2 s pool d now mat :=
  add_nonneg ha (accrual2_nonneg s pool d now mat hd)

theorem userOrNew_nonneg (s : FarmState) (u pid now : Nat) (h5 : RowsOk s) :
    0 ≤ (userOrNew s u pid now).deposited ∧
    0 ≤ (userOrNew s u pid now).accrued_rewards1 ∧
    0 ≤ (userOrNew s u pid now).accrued_rewards2 := by
  unfold userOrNew
  cases hu : s.users u pid
  · simp
  · simpa using h5 u pid _ hu

theorem depositApply_inv (s : FarmState) (now depositor : Nat) (amount : Int)
    (poolId : Nat) (pool : Pool) (mat : Nat)
    (hI : FarmInv s) (hamt : 0 < amount)
    (hs : hasSufficientRewards s (s.allocated1 + potential1 pool mat now amount)
          (s.allocated2 + potential2 s pool mat now amount)) :
    FarmInv (depositApply s now depositor amount poolId pool mat) := by
  obtain ⟨h1, h2, h3, h4, h5⟩ := hI
  obtain ⟨hd0, hd1, hd2⟩ := userOrNew_nonneg s depositor poolId now h5
  unfold hasSufficientRewards at hs
  unfold FarmInv depositApply
  dsimp only
  refine ⟨h1, h2, ?_, ?_, ?_⟩
  · split at hs
    · exact hs.1
    · exact hs.1
  · split at hs
    · exact hs.2
    · have := hs.2
      linarith
  · intro u p d0 hd
    unfold setUser at hd
    dsimp only at hd
    split at hd
    · cases hd
      refine ⟨?_, ?_, ?_⟩ <;> dsimp only
      · linarith
      · exact add_nonneg hd1 (accrual1_nonneg _ _ _ _ hd0)
      · exact add_nonneg hd2 (accrual2_nonneg _ _ _ _ _ hd0)
    · exact h5 u p d0 hd

theorem withdrawApply_inv (s : FarmState) (now withdrawer : Nat) (amount : Int)
    (poolId : Nat) (pool : Pool) (mat : Nat) (d : UserData)
    (hI : FarmInv s)
    (hu : s.users withdrawer poolId = some d)
    (hamt : 0 ≤ amount) (hda : amount ≤ d.deposited)
    (htrap1 : ¬(0 < paidOut1 pool d now mat ∧ s.bal1 < paidOut1 pool d now mat))
    (htrap2 : ¬(0 < paidOut2 s pool d now mat ∧ s.rewardedToken2.isSome = true
                ∧ s.bal2 < paidOut2 s pool d now mat)) :
    FarmInv (withdrawApply s now withdrawer amount poolId pool mat d) := by
  obtain ⟨h1, h2, h3, h4, h5⟩ := hI
  obtain ⟨hd0, hd1, hd2⟩ := h5 withdrawer poolId d hu
  have hp1 : 0 ≤ paidOut1 pool d now mat := paidOut1_nonneg pool d now mat hd1 hd0
  have hp2 : 0 ≤ paidOut2 s pool d now mat := paidOut2_nonneg s pool d now mat hd2 hd0
  have hr1 : 0 ≤ (if now < mat then potential1 pool mat now amount else 0) := by
    split
    · exact potential1_nonneg pool mat now amount hamt
    · exact le_refl 0
  have hr2 : 0 ≤ (if now < mat then potential2 s pool mat now amount else 0) := by
    split
    · exact potential2_nonneg s pool mat now amount hamt
    · exact le_refl 0
  push_neg at htrap1 htrap2
  unfold FarmInv withdrawApply
  dsimp only
  refine ⟨?_, ?_, ?_, ?_, ?_⟩
  · by_cases h01 : 0 < paidOut1 pool d now mat
    · rw [if_pos h01]
      have := htrap1 h01
      linarith
    · rw [if_neg h01]
      exact h1
  · by_cases h02 : 0 < paidOut2 s pool d now mat ∧ s.rewardedToken2.isSome = true
    · rw [if_pos h02]
      have := htrap2 h02.1 h02.2
      linarith
    · rw [if_neg h02]
      exact h2
  · by_cases h01 : 0 < paidOut1 pool d now mat
    · rw [if_pos h01]
      have := htrap1 h01
      linarith
    · rw [if_neg h01]
      have : paidOut1 pool d now mat = 0 := by linarith
      linarith
  · by_cases h02 : 0 < paidOut2 s pool d now mat ∧ s.rewardedToken2.isSome = true
    · rw [if_pos h02]
      have := htrap2 h02.1 h02.2
      linarith
    · rw [if_neg h02]
      linarith
  · intro u p d0 hd
    unfold setUser at hd
    dsimp only at hd
    split at hd
    · by_cases hdd : 0 < d.deposited - amount
      · rw [if_pos hdd] at hd
        cases hd
        refine ⟨?_, le_refl 0, le_refl 0⟩
        dsimp only
        linarith
      · rw [if_neg hdd] at hd
        cases hd
    · exact h5 u p d0 hd

theorem farmDeposit_inv (s s' : FarmState) (now depositor : Nat) (amount ret : Int)
    (poolId : Nat) (hI : FarmInv s)
    (h : farmDeposit s now depositor amount poolId = .ok (s', ret)) : FarmInv s' := by
  unfold farmDeposit at h
  repeat' split at h
  any_goals cases h
  all_goals
    exact depositApply_inv _ _ _ _ _ _ _ hI (by omega) (by assumption)

theorem farmWithdraw_inv (s s' : FarmState) (now withdrawer : Nat) (amount ret : Int)
    (poolId : Nat) (hI : FarmInv s)
    (h : farmWithdraw s now withdrawer amount poolId = .ok (s', ret)) : FarmInv s' := by
  unfold farmWithdraw at h
  repeat' split at h
  any_goals cases h
  all_goals
    exact withdrawApply_inv _ _ _ _ _ _ _ _ hI (by assumption) (by omega) (by omega)
      (by assumption) (by assumption)

theorem farmWithdrawUnalloc_inv (s s' : FarmState) (now : Nat) (ret : Int × Int)
    (hI : FarmInv s)
    (h : farmWithdrawUnalloc s now = .ok (s', ret)) : FarmInv s' := by
  obtain ⟨h1, h2, h3, h4, h5⟩ := hI
  have e1 : max (s.bal1 - s.allocated1) 0 = s.bal1 - s.allocated1 :=
    max_eq_left (by linarith)
  have e2 : max (s.bal2 - s.allocated2) 0 = s.bal2 - s.allocated2 :=
    max_eq_left (by linarith)
  unfold farmWithdrawUnalloc at h
  rcases ha : s.admin with _ | adm <;> rw [ha] at h
  · cases h
  rcases hm : s.maturity with _ | mat <;> rw [hm] at h
  · cases h
  rcases hr1 : s.rewardedToken1 with _ | rt1
  all_goals rcases hrt2 : s.rewardedToken2 with _ | t2
  all_goals
    simp only [hr1, hrt2, Option.isSome_none, Option.isSome_some, if_true, if_false,
      Bool.false_eq_true, false_and, and_false, false_and, if_neg, ite_false,
      Bool.true_eq_false, not_false_iff, reduceIte] at h
  all_goals split_ifs at h with g1 g2 g3
  all_goals try cases h
  all_goals simp only [e1, e2, true_and] at *
  all_goals refine ⟨?_, ?_, ?_, ?_, ?_⟩ <;> first
    | exact h5
    | (dsimp only
       omega)
theorem farmCreatePool_inv (s s' : FarmState) (startT : Nat) (r1 : Int)
    (r2 : Option Int) (pid : Nat)
    (hI : FarmInv s) (h : farmCreatePool s startT r1 r2 = .ok (s', pid)) :
    FarmInv s' := by
  unfold farmCreatePool addPool at h
  obtain ⟨h1, h2, h3, h4, h5⟩ := hI
  repeat' split at h
  any_goals cases h
  all_goals exact ⟨h1, h2, h3, h4, h5⟩

theorem farmSetAdmin_inv (s s' : FarmState) (newAdmin : Nat)
    (hI : FarmInv s) (h : farmSetAdmin s newAdmin = .ok s') : FarmInv s' := by
  unfold farmSetAdmin at h
  obtain ⟨h1, h2, h3, h4, h5⟩ := hI
  split at h
  · cases h
  · simp only [Except.ok.injEq] at h
    subst h
    exact ⟨h1, h2, h3, h4, h5⟩

theorem farmSetStopped_inv (s s' : FarmState) (b : Bool)
    (hI : FarmInv s) (h : farmSetStopped s b = .ok s') : FarmInv s' := by
  unfold farmSetStopped at h
  obtain ⟨h1, h2, h3, h4, h5⟩ := hI
  split at h
  · cases h
  · simp only [Except.ok.injEq] at h
    subst h
    exact ⟨h1, h2, h3, h4, h5⟩

theorem FarmStep_inv (s s' : FarmState) (hI : FarmInv s) (hst : FarmStep s s') :
    FarmInv s' := by
  cases hst with
  | init adm rt1 rt2 poolTok mat maxR1 maxR2 h =>
    exact farmInit_inv s s' adm rt1 rt2 poolTok mat maxR1 maxR2 hI h
  | createPool startT r1 r2 pid h =>
    exact farmCreatePool_inv s s' startT r1 r2 pid hI h
  | deposit now depositor amount ret poolId h =>
    exact farmDeposit_inv s s' now depositor amount ret poolId hI h
  | withdraw now withdrawer amount ret poolId h =>
    exact farmWithdraw_inv s s' now withdrawer amount ret poolId hI h
  | unalloc now ret h =>
    exact farmWithdrawUnalloc_inv s s' now ret hI h
  | setAdmin newAdmin h =>
    exact farmSetAdmin_inv s s' newAdmin hI h
  | setStopped b h =>
    exact farmSetStopped_inv s s' b hI h
  | fund a1 a2 ha1 ha2 =>
    obtain ⟨h1, h2, h3, h4, h5⟩ := hI
    exact ⟨by dsimp only; linarith, by dsimp only; linarith,
           by dsimp only; linarith, by dsimp only; linarith, h5⟩

theorem farmStart_inv : FarmInv farmStart := by
  refine ⟨le_refl 0, le_refl 0, le_refl 0, le_refl 0, ?_⟩
  intro u p d hd
  cases hd

theorem FarmReach_inv (s : FarmState) (h : FarmReach s) : FarmInv s := by
  unfold FarmReach at h
  induction h with
  | refl => exact farmStart_inv
  | tail hr hs ih => exact FarmStep_inv _ _ ih hs

/-- Inversion of a successful vault withdrawal: the returned payout is
`(total_reserve / total_shares) * amount` with the division first, the
share total drops by `amount`, and the reserve drops by the payout. -/
theorem vaultWithdraw_ok_state (s : VaultState) (now dst : Nat) (amount : Int)
    (s1 : VaultState) (r : Int)
    (h : vaultWithdraw s now dst amount = .ok (s1, r)) :
    r = Int.tdiv s.totalReserve s.totalShares * amount ∧
    s1.totalShares = s.totalShares - amount ∧
    s1.totalReserve = s.totalReserve - r := by
  unfold vaultWithdraw at h
  by_cases c1 : amount < 0
  · rw [if_pos c1] at h
    cases h
  rw [if_neg c1] at h
  by_cases c2 : now < s.endTime
  · rw [if_pos c2] at h
    cases h
  rw [if_neg c2] at h
  by_cases c3 : s.totalReserve = 0
  · rw [if_pos c3] at h
    cases h
  rw [if_neg c3] at h
  rcases ht1 : transferBal s.shareBal dst s.selfAddr amount with _ | sb1 <;>
    rw [ht1] at h
  · cases h
  dsimp only at h
  by_cases c4 : s.totalShares = 0
  · rw [if_pos c4] at h
    cases h
  rw [if_neg c4] at h
  rcases ht2 : transferBal s.assetBal s.selfAddr dst
      (Int.tdiv s.totalReserve s.totalShares * amount) with _ | ab <;>
    rw [ht2] at h
  · cases h
  dsimp only at h
  rcases ht3 : burnBal sb1 s.selfAddr amount with _ | sb2 <;>
    rw [ht3] at h
  · cases h
  dsimp only at h
  simp only [Except.ok.injEq, Prod.mk.injEq] at h
  obtain ⟨hs1, hr⟩ := h
  subst hs1
  subst hr
  exact ⟨rfl, rfl, rfl⟩

/-- The all-zero member of `VaultState`: a convenient base from which
the concrete key-present states below are built.  (It does not stand
for a freshly deployed vault — fresh storage has no keys at all; see
`vaultInit`.) -/
def vaultZero : VaultState where
  token := 0
  admin := 0
  treasury := 0
  selfAddr := 0
  startTime := 0
  endTime := 0
  quotePeriod := 0
  quoteExpiration := 0
  currentQuote := 0
  totalShares := 0
  reserve := 0
  totalReserve := 0
  assetBal := fun _ => 0
  shareBal := fun _ => 0

/-- Matured vault state of the C2 probe: 200 outstanding shares (all
held by address 1), total redemption 300 (held by the vault, address
0), maturity at time 100. -/
def vaultC2 : VaultState :=
  { vaultZero with
    endTime := 100
    totalShares := 200
    totalReserve := 300
    shareBal := fun a => if a = 1 then 200 else 0
    assetBal := fun a => if a = 0 then 300 else 0 }

/-- C2 counterexample: in the matured probe state with
`TotalShares = 200` and `TotalRedemption = 300`, withdrawing all 200
shares returns 200 — not the 300 the claim asserts — and leaves a
stored redemption of 100, not 0 (the code computes
`300 / 200 * 200 = 1 * 200 = 200`). -/
theorem C2_counterexample :
    (vaultWithdraw vaultC2 150 1 200).map (fun p => (p.2, p.1.totalReserve))
      = .ok (200, 100) ∧
    ((200 : Int), (100 : Int)) ≠ ((300 : Int), (0 : Int)) :=
  ⟨rfl, by decide⟩

/-- C2 (amended): in every matured vault state with `TotalShares = 200`
and `TotalRedemption = 300` in which the withdrawal can commit, a
single withdraw of all 200 shares returns exactly 200 units of the
underlying asset (truncated whole-ratio division: `300/200*200 = 200`)
and the stored `TotalRedemption` afterwards is 100. -/
theorem C2_redemption_probe (s : VaultState) (now dst : Nat)
    (hsh : s.totalShares = 200) (hres : s.totalReserve = 300)
    (hok : (vaultWithdraw s now dst 200).isOk = true) :
    (vaultWithdraw s now dst 200).map (fun p => (p.2, p.1.totalReserve))
      = .ok (200, 100) := by
  rcases hw : vaultWithdraw s now dst 200 with e | ⟨s1, r⟩
  · rw [hw] at hok
    cases hok
  · obtain ⟨h1, h2, h3⟩ := vaultWithdraw_ok_state s now dst 200 s1 r hw
    rw [hsh, hres] at h1
    have hr200 : r = 200 := by rw [h1]; decide
    simp only [Except.map, Except.ok.injEq, Prod.mk.injEq]
    exact ⟨hr200, by rw [h3, hres, hr200]; decide⟩

/-- Witness for C2 at the concrete probe state. -/
theorem C2_redemption_probe_witness :
    vaultC2.totalShares = 200 ∧ vaultC2.totalReserve = 300 ∧
    (vaultWithdraw vaultC2 150 1 200).isOk = true ∧
    (vaultWithdraw vaultC2 150 1 200).map (fun p => (p.2, p.1.totalReserve))
      = .ok (200, 100) :=
  ⟨rfl, rfl, rfl, C2_redemption_probe vaultC2 150 1 rfl rfl rfl⟩

/-- Vault state used to exercise the general payout rule: 40 shares
outstanding (held by address 1), redemption 700 with the vault at
address 0, maturity at 100. -/
def vaultC3 : VaultState :=
  { vaultZero with
    endTime := 100
    totalShares := 40
    totalReserve := 700
    shareBal := fun a => if a = 1 then 40 else 0
    assetBal := fun a => if a = 0 then 700 else 0 }

/-- C3: every vault withdrawal that commits returns
`payout = (TotalRedemption / TotalShares) * amount` — the truncating
`i128` division performed on the whole ratio first, then multiplied by
`amount` — burns exactly `amount` shares from the total, and decrements
the stored redemption by exactly the payout. -/
theorem C3_withdraw_payout (s : VaultState) (now dst : Nat) (amount : Int)
    (hok : (vaultWithdraw s now dst amount).isOk = true) :
    (vaultWithdraw s now dst amount).map
        (fun p => (p.2, p.1.totalShares, p.1.totalReserve))
      = .ok (Int.tdiv s.totalReserve s.totalShares * amount,
             s.totalShares - amount,
             s.totalReserve - Int.tdiv s.totalReserve s.totalShares * amount) := by
  rcases hw : vaultWithdraw s now dst amount with e | ⟨s1, r⟩
  · rw [hw] at hok
    cases hok
  · obtain ⟨h1, h2, h3⟩ := vaultWithdraw_ok_state s now dst amount s1 r hw
    simp only [Except.map, Except.ok.injEq, Prod.mk.injEq]
    exact ⟨h1.symm ▸ rfl, h2, by rw [h3, h1]⟩

/-- Witness for C3: withdrawing 10 of 40 shares against a redemption of
700 pays `(700 tdiv 40) * 10 = 17 * 10 = 170` (not `700*10/40 = 175`),
leaving 30 shares and 530 of redemption. -/
theorem C3_withdraw_payout_witness :
    (vaultWithdraw vaultC3 150 1 10).isOk = true ∧
    (vaultWithdraw vaultC3 150 1 10).map
        (fun p => (p.2, p.1.totalShares, p.1.totalReserve))
      = .ok (170, 30, 530) :=
  ⟨rfl, (C3_withdraw_payout vaultC3 150 1 10 rfl).trans
    (congrArg Except.ok (by decide))⟩

/-- Vault state holding a live quote: value 7 (non-zero), expiration
500 (non-zero), so at time 400 the quote reads as live. -/
def vaultC5 : VaultState :=
  { vaultZero with
    currentQuote := 7
    quoteExpiration := 500
    quotePeriod := 60 }

/-- C5 counterexample: with a live stored quote (value 7, expiration
500, now = 400 ≤ 500) `set_quote` is not rejected — it commits and
silently overwrites the live quote with 9. -/
theorem C5_counterexample :
    vaultC5.currentQuote ≠ 0 ∧ vaultC5.quoteExpiration ≠ 0 ∧
    (400 : Nat) ≤ vaultC5.quoteExpiration ∧
    getCurrentQuote vaultC5 400 = 7 ∧
    vaultSetQuote vaultC5 400 9
      = .ok { vaultC5 with currentQuote := 9, quoteExpiration := 460 } :=
  ⟨by decide, by decide, by decide, rfl, rfl⟩

/-- C5 (amended): `set_quote` never inspects the stored quote at all —
for every state and time, an admin-authorized call with a non-negative
value commits, overwriting the stored quote and resetting the
expiration to `now + quote_period`, live or not. -/
theorem C5_set_quote_overwrites (s : VaultState) (now : Nat) (amount : Int)
    (h : 0 ≤ amount) :
    vaultSetQuote s now amount
      = .ok { s with
              currentQuote := amount
              quoteExpiration := now + s.quotePeriod } := by
  unfold vaultSetQuote
  rw [if_neg (by omega)]

/-- Witness for C5 at the live-quote state. -/
theorem C5_set_quote_overwrites_witness :
    (0 : Int) ≤ 9 ∧
    vaultSetQuote vaultC5 400 9
      = .ok { vaultC5 with currentQuote := 9, quoteExpiration := 400 + vaultC5.quotePeriod } :=
  ⟨by decide, C5_set_quote_overwrites vaultC5 400 9 (by decide)⟩

/-- Open vault (window [1, 1000], quote period 10) with depositor 2
funded with 100 of the underlying; treasury is address 3. -/
def vaultC6 : VaultState :=
  { vaultZero with
    admin := 1
    treasury := 3
    startTime := 1
    endTime := 1000
    quotePeriod := 10
    assetBal := fun a => if a = 2 then 100 else 0 }

/-- The state after posting quote 5 at time 100 on `vaultC6`:
expiration is 110. -/
def vaultC6q : VaultState :=
  { vaultC6 with currentQuote := 5, quoteExpiration := 110 }

/-- C6 counterexample: a quote of 5 set at T = 100 with period P = 10
still reads as 5 — not zero — at the boundary time T + P = 110
(`now ≤ expiration` keeps it live), and a deposit at exactly T + P
succeeds rather than failing with the quote-required error. -/
theorem C6_counterexample :
    vaultSetQuote vaultC6 100 5 = .ok vaultC6q ∧
    getCurrentQuote vaultC6q (100 + vaultC6.quotePeriod) = 5 ∧
    (vaultDeposit vaultC6q 110 2 10).map (fun p => p.2) = .ok 50 :=
  ⟨rfl, rfl, rfl⟩

/-- C6 (amended): after a quote is set at time T with period P, the
quote reads as zero at every time strictly after T + P, and a deposit
of a non-negative amount inside the open window fails with the
quote-required error there. -/
theorem C6_quote_staleness (s s1 : VaultState) (T : Nat) (v : Int)
    (now src : Nat) (amount : Int)
    (hset : vaultSetQuote s T v = .ok s1)
    (hlate : T + s.quotePeriod < now) :
    getCurrentQuote s1 now = 0 ∧
    (0 ≤ amount → s1.startTime ≤ now → now ≤ s1.endTime →
      vaultDeposit s1 now src amount = .error .quoteRequired) := by
  unfold vaultSetQuote at hset
  split_ifs at hset
  simp only [Except.ok.injEq] at hset
  subst hset
  have hq : getCurrentQuote
      { s with currentQuote := v, quoteExpiration := T + s.quotePeriod } now = 0 := by
    unfold getCurrentQuote
    dsimp only
    split_ifs with hc1 hc2
    · omega
    · rfl
    · rfl
  refine ⟨hq, ?_⟩
  intro hamt hs1 hs2
  unfold vaultDeposit
  dsimp only at hs1 hs2 ⊢
  rw [if_neg (by omega), if_neg (by omega), if_neg (by omega), if_pos hq]

/-- Witness for C6: quote 5 posted at T = 100, P = 10; at time 111 the
quote reads zero and the deposit is rejected with the quote-required
error. -/
theorem C6_quote_staleness_witness :
    vaultSetQuote vaultC6 100 5 = .ok vaultC6q ∧
    100 + vaultC6.quotePeriod < 111 ∧
    getCurrentQuote vaultC6q 111 = 0 ∧
    vaultDeposit vaultC6q 111 2 10 = .error .quoteRequired := by
  have h := C6_quote_staleness vaultC6 vaultC6q 100 5 111 2 10 rfl (by decide)
  exact ⟨rfl, by decide, h.1, h.2 (by decide) (by decide) (by decide)⟩

/-- Open vault with a quote that stays live far past maturity
(expiration 2000, maturity 1000), depositor 2 funded, holder 1 with
shares; used for the maturity-gating claim. -/
def vaultC7 : VaultState :=
  { vaultZero with
    admin := 1
    treasury := 3
    startTime := 1
    endTime := 1000
    currentQuote := 5
    quoteExpiration := 2000
    assetBal := fun a => if a = 2 then 100 else 0 }

/-- C7 counterexample: the deposit cut-off is strict — at
`now = end_time` exactly (1000), a deposit still succeeds, because the
code rejects only `now > end_time`; the claim's `now ≥ maturity` gating
is refuted at the boundary. -/
theorem C7_counterexample :
    vaultC7.endTime = 1000 ∧
    (vaultDeposit vaultC7 1000 2 10).map (fun p => p.2) = .ok 50 :=
  ⟨rfl, rfl⟩

/-- C7 (amended): vault deposit fails (for every amount) at every time
strictly after `end_time`, and vault withdraw fails at every time
strictly before `end_time`. -/
theorem C7_maturity_gating (s : VaultState) (now src dst : Nat) (amount : Int) :
    (s.endTime < now → (vaultDeposit s now src amount).isOk = false) ∧
    (now < s.endTime → (vaultWithdraw s now dst amount).isOk = false) := by
  constructor
  · intro hlate
    unfold vaultDeposit
    rcases lt_or_le amount 0 with hc | hc
    · rw [if_pos hc]
      rfl
    · rw [if_neg (by omega), if_pos hlate]
      rfl
  · intro hearly
    unfold vaultWithdraw
    rcases lt_or_le amount 0 with hc | hc
    · rw [if_pos hc]
      rfl
    · rw [if_neg (by omega), if_pos hearly]
      rfl

/-- Witness for C7: at time 1001 (past maturity 1000) the deposit is
rejected; at time 999 (before maturity) the withdrawal is rejected. -/
theorem C7_maturity_gating_witness :
    vaultC7.endTime < 1001 ∧ (vaultDeposit vaultC7 1001 2 10).isOk = false ∧
    999 < vaultC7.endTime ∧ (vaultWithdraw vaultC7 999 1 10).isOk = false :=
  ⟨by decide, (C7_maturity_gating vaultC7 1001 2 1 10).1 (by decide),
   by decide, (C7_maturity_gating vaultC7 999 2 1 10).2 (by decide)⟩

/-- Matured vault with a residual redemption of 5 but zero outstanding
shares — the configuration in which the withdrawal division has a zero
divisor. -/
def vaultC10 : VaultState :=
  { vaultZero with
    endTime := 100
    totalShares := 0
    totalReserve := 5 }

/-- C10: in every matured state with a positive stored redemption and
`TotalShares = 0`, a withdraw call whose share transfer can commit
(in particular one with amount 0) reaches
`total_reserve / total_shares` with a zero divisor and aborts with the
division-by-zero trap — which is not one of the vault's designated
panic errors. -/
theorem C10_withdraw_div_by_zero (s : VaultState) (now dst : Nat) (amount : Int)
    (hmat : s.endTime ≤ now) (hres : 0 < s.totalReserve) (hsh : s.totalShares = 0)
    (hamt : 0 ≤ amount) (hbal : amount ≤ s.shareBal dst) :
    vaultWithdraw s now dst amount = .error .divByZero := by
  unfold vaultWithdraw
  rw [if_neg (by omega), if_neg (by omega), if_neg (by omega)]
  have ht : transferBal s.shareBal dst s.selfAddr amount
      = some (updBal (updBal s.shareBal dst (s.shareBal dst - amount)) s.selfAddr
          ((updBal s.shareBal dst (s.shareBal dst - amount)) s.selfAddr + amount)) := by
    unfold transferBal
    rw [if_neg (by omega), if_neg (by omega)]
  rw [ht]
  dsimp only
  rw [if_pos hsh]

/-- Witness for C10: the zero-amount withdraw against residual
redemption 5 and zero shares aborts with the division trap. -/
theorem C10_withdraw_div_by_zero_witness :
    vaultC10.endTime ≤ 100 ∧ 0 < vaultC10.totalReserve ∧ vaultC10.totalShares = 0 ∧
    vaultWithdraw vaultC10 100 1 0 = .error .divByZero :=
  ⟨by decide, by decide, rfl,
   C10_withdraw_div_by_zero vaultC10 100 1 0 (by decide) (by decide) rfl
     (by decide) (by decide)⟩

/-- C1: farm solvency — in every state reachable from deployment by
committed calls (and external reward funding), the stored
allocated-rewards counter of track 1 is at most the farm's balance of
reward token 1, and likewise for track 2 whenever a second reward token
is configured. -/
theorem C1_farm_solvency (s : FarmState) (h : FarmReach s) :
    s.allocated1 ≤ s.bal1 ∧
    (s.rewardedToken2.isSome = true → s.allocated2 ≤ s.bal2) := by
  obtain ⟨h1, h2, h3, h4, h5⟩ := FarmReach_inv s h
  exact ⟨h3, fun _ => h4⟩

/-- Farm state after one successful initialization from deployment
(admin 1, reward tokens 2 and 3, pool token 4, maturity 1000, maximum
ratios 5). -/
def farmC1 : FarmState :=
  { farmStart with
    admin := some 1
    rewardedToken1 := some 2
    rewardedToken2 := some 3
    poolToken := some 4
    maturity := some 1000
    allocated1 := 0
    allocated2 := 0
    poolCounter := 0
    maxRatio1 := some 5
    maxRatio2 := some 5
    isInit := true }

/-- Witness for C1 at a concrete reachable state (one committed
`initialize` from deployment). -/
theorem C1_farm_solvency_witness :
    FarmReach farmC1 ∧
    (farmC1.allocated1 ≤ farmC1.bal1 ∧
      (farmC1.rewardedToken2.isSome = true → farmC1.allocated2 ≤ farmC1.bal2)) :=
  have hr : FarmReach farmC1 :=
    Relation.ReflTransGen.single
      (FarmStep.init 1 2 (some 3) 4 1000 5 (some 5) rfl)
  ⟨hr, C1_farm_solvency farmC1 hr⟩

/-- C4: on every committed farm withdrawal strictly before maturity,
for each enabled track the allocated-rewards counter drops by exactly
the paid-out rewards (banked accrued plus fresh yield on the whole
remaining deposit) plus the unused future commitment
`amount * ratio_i * (maturity − now) / 1e7` of the withdrawn amount —
and by nothing else, so the commitment of the principal that stays
deposited is untouched. -/
theorem C4_early_exit_refund (s : FarmState) (now withdrawer : Nat) (amount : Int)
    (poolId : Nat) (pool : Pool) (d : UserData) (mat : Nat)
    (hp : s.pools poolId = some pool) (hd : s.users withdrawer poolId = some d)
    (hm : s.maturity = some mat) (hearly : now < mat)
    (hok : (farmWithdraw s now withdrawer amount poolId).isOk = true) :
    (0 < pool.reward_ratio1 →
      (farmWithdraw s now withdrawer amount poolId).map (fun p => p.1.allocated1)
        = .ok (s.allocated1 - (d.accrued_rewards1 + accrual1 pool d now mat)
            - Int.tdiv (amount * pool.reward_ratio1 * ((mat - now : Nat) : Int))
                (10 ^ DECIMALS))) ∧
    (s.rewardedToken2.isSome = true → 0 < pool.reward_ratio2 →
      (farmWithdraw s now withdrawer amount poolId).map (fun p => p.1.allocated2)
        = .ok (s.allocated2 - (d.accrued_rewards2 + accrual2 s pool d now mat)
            - Int.tdiv (amount * pool.reward_ratio2 * ((mat - now : Nat) : Int))
                (10 ^ DECIMALS))) := by
  rcases hw : farmWithdraw s now withdrawer amount poolId with e | ⟨s1, r⟩
  · rw [hw] at hok
    cases hok
  have hs1 : s1 = withdrawApply s now withdrawer amount poolId pool mat d := by
    unfold farmWithdraw at hw
    rw [hp, hd, hm] at hw
    try dsimp only at hw
    split_ifs at hw
    all_goals rcases hpt : s.poolToken with _ | pt <;> rw [hpt] at hw
    all_goals cases hw
    all_goals rfl
  subst hs1
  constructor
  · intro hr1
    simp only [Except.map, Except.ok.injEq]
    unfold withdrawApply
    dsimp only
    rw [if_pos hearly]
    unfold paidOut1 potential1 linYield
    rw [if_pos hr1]
  · intro ht2 hr2
    simp only [Except.map, Except.ok.injEq]
    unfold withdrawApply
    dsimp only
    rw [if_pos hearly]
    unfold paidOut2 potential2 linYield
    rw [if_pos ht2, if_pos hr2]

/-- Farm state realizing the spec's early-exit probe: a single pool 0
with track-1 ratio 1e5 (that is 0.01/s at the 1e7 fixed-point scale),
maturity 1000, a position of 100 deposited at time 0 by address 7, the
matching commitment 1000 allocated, and 1000 of reward token 1 held. -/
def farmC4 : FarmState :=
  { farmStart with
    admin := some 1
    rewardedToken1 := some 2
    rewardedToken2 := none
    poolToken := some 4
    maturity := some 1000
    maxRatio1 := some 100000
    maxRatio2 := none
    allocated1 := 1000
    allocated2 := 0
    poolCounter := 1
    isInit := true
    pools := fun i => if i = 0 then some ⟨0, 100000, 0⟩ else none
    users := fun u p => if u = 7 ∧ p = 0 then some ⟨100, 0, 0, 0⟩ else none
    bal1 := 1000
    bal2 := 0 }

/-- Witness for C4, the spec's probe: deposit 100 at ratio 1e-2/s into
a pool maturing at 1000s, withdraw 50 at 500s; the accrued payout is
500, the refund on the withdrawn 50 over the remaining 500s is 250, so
allocated rewards drop from 1000 to 250 — exactly the commitment of the
untouched 50 units over the remaining 500s. -/
theorem C4_early_exit_refund_witness :
    farmC4.pools 0 = some ⟨0, 100000, 0⟩ ∧
    farmC4.users 7 0 = some ⟨100, 0, 0, 0⟩ ∧
    farmC4.maturity = some 1000 ∧ (500 : Nat) < 1000 ∧
    (farmWithdraw farmC4 500 7 50 0).isOk = true ∧
    (farmWithdraw farmC4 500 7 50 0).map (fun p => p.1.allocated1) = .ok 250 := by
  have h := (C4_early_exit_refund farmC4 500 7 50 0 ⟨0, 100000, 0⟩ ⟨100, 0, 0, 0⟩ 1000
      rfl rfl rfl (by decide) rfl).1 (by decide)
  exact ⟨rfl, rfl, rfl, by decide, rfl, h.trans (congrArg Except.ok (by decide))⟩

/-- C8: on a freshly deployed vault — instance storage empty — every
`initialize` call traps with the host's missing-value error while
reading the absent `StartTime` key, before the already-initialized
guard can run, whatever the arguments: no first `initialize` ever
commits, so the claim's premise of a successful vault initialization is
unsatisfiable and no second call is ever reached.  (The farm half of
the claim holds: every farm state whose `Initialized` flag is set — the
flag a committed `Farm::initialize` stores — rejects a second
`initialize` with `AlreadyInitialized`, whatever the arguments.) -/
theorem C8_fresh_vault_init_traps :
    (∀ (tok adm startT endT quoteP treas : Nat),
      vaultInit none tok adm startT endT quoteP treas = .error .missingValue) ∧
    (∀ (s : FarmState) (adm rt1 : Nat) (rt2 : Option Nat) (poolTok mat : Nat)
        (maxR1 : Int) (maxR2 : Option Int),
      farmInit { s with isInit := true } adm rt1 rt2 poolTok mat maxR1 maxR2
        = .error (.err .AlreadyInitialized)) :=
  ⟨fun _ _ _ _ _ _ => rfl, fun _ _ _ _ _ _ _ _ => rfl⟩

/-- Farm state initialized with NO second reward token but WITH a
second maximum ratio — the configuration on which the claim's reading
of the optional-track check and the code's diverge. -/
def farmC9 : FarmState :=
  { farmStart with
    admin := some 1
    rewardedToken1 := some 2
    rewardedToken2 := none
    poolToken := some 4
    maturity := some 1000
    maxRatio1 := some 10
    maxRatio2 := some 10
    isInit := true }

/-- C9 counterexample: `initialize` accepts a second maximum ratio
without a second reward token; on the resulting farm — where reward
track 2 is disabled farm-wide (no second reward token configured) —
`create_pool` with a supplied `ratio2` succeeds instead of being
rejected: the code keys the optional-ratio check on the stored
`MaxRewardRatio2`, not on the presence of the second reward token. -/
theorem C9_counterexample :
    farmInit farmStart 1 2 none 4 1000 10 (some 10) = .ok farmC9 ∧
    farmC9.rewardedToken2 = none ∧
    (farmCreatePool farmC9 0 1 (some 5)).isOk = true :=
  ⟨rfl, rfl, rfl⟩

/-- C9 (amended): `create_pool` rejects `ratio1 > max_ratio1` with
`InvalidAmount`; it rejects a supplied `ratio2` when no second maximum
ratio is stored or when it exceeds the stored `max_ratio2`, and rejects
an omitted `ratio2` when a second maximum ratio is stored — presence of
the optional ratio must match the presence of the stored
`MaxRewardRatio2` (not the reward-token-2 address) exactly. -/
theorem C9_create_pool_checks (s : FarmState) (startT : Nat) (r1 : Int)
    (r2 : Option Int) (adm : Nat) (m1 : Int)
    (ha : s.admin = some adm) (hm1 : s.maxRatio1 = some m1) :
    (m1 < r1 → farmCreatePool s startT r1 r2 = .error (.err .InvalidAmount)) ∧
    (∀ x, r2 = some x → s.maxRatio2 = none →
      farmCreatePool s startT r1 r2 = .error (.err .InvalidAmount)) ∧
    (∀ x m2, r2 = some x → s.maxRatio2 = some m2 → m2 < x →
      farmCreatePool s startT r1 r2 = .error (.err .InvalidAmount)) ∧
    (r2 = none → s.maxRatio2.isSome = true →
      farmCreatePool s startT r1 r2 = .error (.err .InvalidAmount)) := by
  refine ⟨?_, ?_, ?_, ?_⟩
  · intro hgt
    unfold farmCreatePool
    rw [ha, hm1]
    dsimp only
    rw [if_pos hgt]
  · intro x hx hn
    subst hx
    unfold farmCreatePool
    rw [ha, hm1]
    dsimp only
    by_cases hgt : m1 < r1
    · rw [if_pos hgt]
    · rw [if_neg hgt, hn]
  · intro x m2 hx hm2 hlt
    subst hx
    unfold farmCreatePool
    rw [ha, hm1]
    dsimp only
    by_cases hgt : m1 < r1
    · rw [if_pos hgt]
    · rw [if_neg hgt, hm2]
      dsimp only
      rw [if_pos hlt]
  · intro hx hsome
    subst hx
    unfold farmCreatePool
    rw [ha, hm1]
    dsimp only
    by_cases hgt : m1 < r1
    · rw [if_pos hgt]
    · rw [if_neg hgt, if_pos hsome]

/-- Witness for C9: on `farmC9` (maximum ratio 2 stored), `create_pool`
rejects an over-cap `ratio1`, an over-cap `ratio2` and an omitted
`ratio2`, each with `InvalidAmount`. -/
theorem C9_create_pool_checks_witness :
    farmC9.admin = some 1 ∧ farmC9.maxRatio1 = some 10 ∧
    farmCreatePool farmC9 0 11 (some 5) = .error (.err .InvalidAmount) ∧
    farmCreatePool farmC9 0 1 (some 11) = .error (.err .InvalidAmount) ∧
    farmCreatePool farmC9 0 1 none = .error (.err .InvalidAmount) :=
  ⟨rfl, rfl,
   (C9_create_pool_checks farmC9 0 11 (some 5) 1 10 rfl rfl).1 (by decide),
   (C9_create_pool_checks farmC9 0 1 (some 11) 1 10 rfl rfl).2.2.1 11 10 rfl rfl
     (by decide),
   (C9_create_pool_checks farmC9 0 1 none 1 10 rfl rfl).2.2.2 rfl rfl⟩

end BondHive
